import Mathlib

/-
Verification of the lazyadb core against its specification.

The definitions below are a shallow embedding of the Rust sources:
  src/adb/device.rs, src/adb/device_info.rs, src/adb/emulator.rs,
  src/adb/client.rs, src/components/panes/devices.rs,
  src/components/panes/content.rs, src/components/modals/emulators.rs,
  src/components/modals/help.rs, src/command.rs, src/msg.rs, src/app.rs.

Modelling conventions:
  - machine floats (f64) are modelled as rationals; the KB values parsed by
    the telemetry parsers are decimal integer tokens in the bridge's output,
    so numeric tokens are parsed as decimal-digit numerals;
  - wall-clock time (Instant / elapsed-interval tests) is modelled by a
    boolean input on the Tick message;
  - subprocess calls to the device bridge are modelled as oracle functions
    or oracle records passed in explicitly (a None result is a failed call);
  - key-to-action keymaps are opaque lookup functions from key tokens to
    action-name strings, exactly as the config loader supplies them.
-/

namespace LazyAdb

/-! ## String helpers mirroring the Rust standard-library calls used

Strings are processed through their character lists with structural (or
fuelled) recursion, so that every parser evaluates on concrete input. -/

def isPrefixOfChars : List Char → List Char → Bool
  | [], _ => true
  | _ :: _, [] => false
  | a :: as, b :: bs => a == b && isPrefixOfChars as bs

/-- Rust str::starts_with. -/
def startsWithStr (s pat : String) : Bool :=
  isPrefixOfChars pat.data s.data

/-- Rust str::ends_with. -/
def endsWithStr (s pat : String) : Bool :=
  isPrefixOfChars pat.data.reverse s.data.reverse

/-- Drop the first n characters. -/
def dropStr (s : String) (n : Nat) : String :=
  String.mk (s.data.drop n)

/-- Drop the last n characters. -/
def dropRightStr (s : String) (n : Nat) : String :=
  String.mk (s.data.take (s.data.length - n))

/-- Rust str::strip_prefix as an Option. -/
def stripPre (s pat : String) : Option String :=
  if startsWithStr s pat then some (dropStr s pat.data.length) else none

/-- Rust str::trim: strip whitespace from both ends. -/
def trimStr (s : String) : String :=
  String.mk (((s.data.dropWhile Char.isWhitespace).reverse.dropWhile
    Char.isWhitespace).reverse)

/-- Fuelled split on a non-empty separator (the fuel is the input length;
each step consumes at least one character). -/
def splitOnAuxC : Nat → List Char → List Char → List (List Char)
  | 0, _, _ => [[]]
  | _ + 1, _, [] => [[]]
  | fuel + 1, sep, c :: cs =>
    if isPrefixOfChars sep (c :: cs) then
      [] :: splitOnAuxC fuel sep ((c :: cs).drop sep.length)
    else
      match splitOnAuxC fuel sep cs with
      | [] => [[c]]
      | t :: ts => (c :: t) :: ts

/-- Split on every occurrence of a separator (the whole string when the
separator is empty, which no caller uses). -/
def splitOnStr (s sep : String) : List String :=
  if sep.data = [] then [s]
  else (splitOnAuxC s.data.length sep.data s.data).map String.mk

def intercalateStr (sep : String) : List String → String
  | [] => ""
  | [x] => x
  | x :: xs => x ++ sep ++ intercalateStr sep xs

/-- Rust str::replace: replace every occurrence of the pattern. -/
def replaceStr (s pat rep : String) : String :=
  if pat.data = [] then s else intercalateStr rep (splitOnStr s pat)

/-- Split at every character satisfying the predicate. -/
def splitPredC (p : Char → Bool) : List Char → List (List Char)
  | [] => [[]]
  | c :: cs =>
    if p c then [] :: splitPredC p cs
    else
      match splitPredC p cs with
      | [] => [[c]]
      | t :: ts => (c :: t) :: ts

/-- Rust str::split_whitespace: whitespace-separated tokens, empties
dropped. -/
def splitWhitespace (s : String) : List String :=
  ((splitPredC Char.isWhitespace s.data).map String.mk).filter (fun t => t ≠ "")

/-- Decimal-digit numeral parse (the numeric tokens the bridge emits are
decimal integers; the sources parse them as machine numbers). -/
def toNatStr? (s : String) : Option Nat :=
  if s.data ≠ [] ∧ s.data.all Char.isDigit then
    some (s.data.foldl (fun n c => n * 10 + (c.toNat - 48)) 0)
  else none

/-- Rust str::lines: split on a newline, drop one trailing empty line,
strip one trailing carriage return per line. -/
def rustLines (s : String) : List String :=
  let ls := splitOnStr s ("\n")
  let ls := match ls.reverse with
    | "" :: rest => rest.reverse
    | _ => ls
  ls.map (fun l => if endsWithStr l ("\r") then dropRightStr l 1 else l)

/-- Rust str::split_once: the pieces before and after the first occurrence
of the separator. -/
def splitOnce (s sep : String) : Option (String × String) :=
  match splitOnStr s sep with
  | [] => none
  | [_] => none
  | a :: rest => some (a, intercalateStr sep rest)

/-- One step of Rust str::trim_end_matches, fuelled (each step removes at
least one character, so length-many steps suffice). -/
def trimEndMatchesAux : Nat → String → String → String
  | 0, s, _ => s
  | fuel + 1, s, pat =>
    if pat ≠ "" ∧ endsWithStr s pat then
      trimEndMatchesAux fuel (dropRightStr s pat.data.length) pat
    else s

/-- Rust str::trim_end_matches: repeatedly remove the trailing pattern. -/
def trimEndMatches (s pat : String) : String :=
  trimEndMatchesAux s.data.length s pat

/-- Rust str::trim_matches('"'): remove leading and trailing quote
characters. -/
def trimQuotes (s : String) : String :=
  let chars := s.data
  let chars := chars.dropWhile (fun c => c = '"')
  let chars := (chars.reverse.dropWhile (fun c => c = '"')).reverse
  String.mk chars

/-! ## Data model (src/adb/device.rs, src/adb/emulator.rs) -/

inductive DeviceState where
  | online
  | offline
  | unauthorized
  | unknown (raw : String)
deriving DecidableEq, Repr

/-- Display for DeviceState (fmt::Display in device.rs). -/
def DeviceState.toDisplay : DeviceState → String
  | .online => "device"
  | .offline => "offline"
  | .unauthorized => "unauthorized"
  | .unknown s => s

inductive ConnectionType where
  | usb
  | tcp
  | emulator
deriving DecidableEq, Repr

structure Device where
  serial : String
  state : DeviceState
  model : Option String
  product : Option String
  transportId : Option String
  connectionType : ConnectionType
deriving DecidableEq, Repr

/-- Device::display_name: the model with underscores replaced by spaces,
else the serial. -/
def Device.displayName (d : Device) : String :=
  match d.model with
  | some m => replaceStr m ("_") (" ")
  | none => d.serial

structure Avd where
  name : String
  runningSerial : Option String
deriving DecidableEq, Repr

def Avd.isRunning (a : Avd) : Bool :=
  a.runningSerial.isSome

/-! ## Telemetry records (src/adb/device_info.rs) -/

structure BatteryInfo where
  level : Nat
  status : String
deriving DecidableEq, Repr

structure StorageInfo where
  usedGb : ℚ
  totalGb : ℚ
deriving DecidableEq, Repr

structure RamInfo where
  usedGb : ℚ
  totalGb : ℚ
deriving DecidableEq, Repr

structure ScreenInfo where
  resolution : String
  density : String
deriving DecidableEq, Repr

structure WifiInfo where
  ssid : String
  ip : String
deriving DecidableEq, Repr

structure DeviceInfo where
  serial : String
  model : String
  androidVersion : String
  apiLevel : String
  state : String
  connectionType : String
  abi : String
  locale : String
  battery : Option BatteryInfo
  storage : Option StorageInfo
  ram : Option RamInfo
  screen : Option ScreenInfo
  wifi : Option WifiInfo
deriving DecidableEq, Repr

/-! ## Telemetry parsers (src/adb/device_info.rs) -/

structure GetpropResult where
  model : String
  androidVersion : String
  apiLevel : String
  abi : String
  locale : String
deriving DecidableEq, Repr

def GetpropResult.empty : GetpropResult :=
  { model := "", androidVersion := "", apiLevel := "", abi := "", locale := "" }

/-- parse_prop_line: a line of the shape [key]: [value]. -/
def parsePropLine (line : String) : Option (String × String) :=
  match stripPre line ("[") with
  | none => none
  | some l =>
    match splitOnce l ("]:") with
    | none => none
    | some (key, rest) =>
      let rest := trimStr rest
      match stripPre rest ("[") with
      | none => none
      | some r =>
        if endsWithStr r ("]") then some (key, dropRightStr r 1) else none

/-- One line of parse_getprop's loop: known keys overwrite, except the two
locale keys, which only set an empty locale. -/
def applyPropLine (r : GetpropResult) (line : String) : GetpropResult :=
  match parsePropLine (trimStr line) with
  | none => r
  | some (key, value) =>
    if key = "ro.build.version.release" then { r with androidVersion := value }
    else if key = "ro.build.version.sdk" then { r with apiLevel := value }
    else if key = "ro.product.cpu.abi" then { r with abi := value }
    else if key = "persist.sys.locale" then
      (if r.locale = "" then { r with locale := value } else r)
    else if key = "ro.product.locale" then
      (if r.locale = "" then { r with locale := value } else r)
    else if key = "ro.product.model" then { r with model := value }
    else r

def parseGetprop (output : String) : GetpropResult :=
  (rustLines output).foldl applyPropLine GetpropResult.empty

/-- One line of parse_battery's loop: the latest level:/status:/plugged: line
overwrites the field with its (possibly failed) parse. -/
def applyBatteryLine (acc : Option Nat × Option Nat × Option Nat) (line : String) :
    Option Nat × Option Nat × Option Nat :=
  let line := trimStr line
  match stripPre line ("level:") with
  | some val => (toNatStr? (trimStr val), acc.2.1, acc.2.2)
  | none =>
    match stripPre line ("status:") with
    | some val => (acc.1, toNatStr? (trimStr val), acc.2.2)
    | none =>
      match stripPre line ("plugged:") with
      | some val => (acc.1, acc.2.1, toNatStr? (trimStr val))
      | none => acc

/-- parse_battery: needs a level line; the status label comes from the
status and plugged codes. -/
def parseBattery (output : String) : Option BatteryInfo :=
  let acc := (rustLines output).foldl applyBatteryLine (none, none, none)
  match acc.1 with
  | none => none
  | some level =>
    let statusStr :=
      match acc.2.1.getD 0 with
      | 2 =>
        let plugType :=
          match acc.2.2.getD 0 with
          | 1 => "AC"
          | 2 => "USB"
          | 4 => "Wireless"
          | _ => "USB"
        "charging (" ++ plugType ++ ")"
      | 3 => "discharging"
      | 5 => "full"
      | 4 => "not charging"
      | _ => "unknown"
    some { level := level, status := statusStr }

/-- The loop body of parse_storage over the lines after the first: the first
line with at least 4 whitespace tokens is used; a parse failure of its
numeric columns ends the whole function with none (the source's ok()?). -/
def goStorage : List String → Option StorageInfo
  | [] => none
  | line :: rest =>
    let parts := splitWhitespace line
    if 4 ≤ parts.length then
      match toNatStr? (parts.getD 1 ""), toNatStr? (parts.getD 2 "") with
      | some totalKb, some usedKb =>
        some { usedGb := (usedKb : ℚ) / 1048576, totalGb := (totalKb : ℚ) / 1048576 }
      | _, _ => none
    else goStorage rest

/-- parse_storage: skip the df header line, then scan for a data line. -/
def parseStorage (output : String) : Option StorageInfo :=
  goStorage ((rustLines output).drop 1)

/-- One line of parse_ram's loop. -/
def applyRamLine (acc : Option Nat × Option Nat) (line : String) : Option Nat × Option Nat :=
  match stripPre line ("MemTotal:") with
  | some val => (toNatStr? (trimStr (trimEndMatches (trimStr val) (" kB"))), acc.2)
  | none =>
    match stripPre line ("MemAvailable:") with
    | some val => (acc.1, toNatStr? (trimStr (trimEndMatches (trimStr val) (" kB"))))
    | none => acc

/-- parse_ram: needs both MemTotal and MemAvailable; used = total - available. -/
def parseRam (output : String) : Option RamInfo :=
  let acc := (rustLines output).foldl applyRamLine (none, none)
  match acc.1, acc.2 with
  | some total, some available =>
    some { usedGb := ((total : ℚ) - (available : ℚ)) / 1048576,
           totalGb := (total : ℚ) / 1048576 }
  | _, _ => none

/-- parse_screen_size: the value after a Physical size: label, with the
letter x replaced by the multiplication sign. -/
def parseScreenSize : String → Option String :=
  fun output =>
    (rustLines output).findSome? fun line =>
      match stripPre line ("Physical size:") with
      | some size => some (replaceStr (trimStr size) ("x") ("×"))
      | none => none

/-- parse_screen_density: the value after a Physical density: label, with a
dpi suffix. -/
def parseScreenDensity : String → Option String :=
  fun output =>
    (rustLines output).findSome? fun line =>
      match stripPre line ("Physical density:") with
      | some density => some (trimStr density ++ "dpi")
      | none => none

/-- The part of one mWifiInfo line after the first SSID: label, if present. -/
def afterLabel (val lab : String) : Option String :=
  match splitOnStr val lab with
  | [] => none
  | [_] => none
  | _ :: rest => some (intercalateStr lab rest)

/-- One line of parse_wifi's loop: scanning stops once an SSID is found. -/
def applyWifiLine (acc : Option String × Option String) (line : String) :
    Option String × Option String :=
  let trimmed := trimStr line
  if acc.1.isSome then acc
  else
    match stripPre trimmed ("mWifiInfo") with
    | none => acc
    | some val =>
      let ssid :=
        match afterLabel val ("SSID: ") with
        | none => acc.1
        | some rest =>
          let ssidVal := trimStr ((splitOnStr rest (",")).headD "")
          let ssidVal := trimQuotes ssidVal
          if ssidVal ≠ "" ∧ ssidVal ≠ "<unknown ssid>" then some ssidVal else acc.1
      let ip :=
        match afterLabel val ("IP: ") with
        | none => acc.2
        | some rest =>
          let ipVal := trimStr (((splitPredC (fun c => c == ',' || c == '/')
            rest.data).map String.mk).headD "")
          if ipVal ≠ "" ∧ ipVal ≠ "0.0.0.0" then some ipVal else acc.2
      (ssid, ip)

/-- parse_wifi: always yields a record; missing fields default to N/A. -/
def parseWifi (output : String) : Option WifiInfo :=
  let acc := (rustLines output).foldl applyWifiLine (none, none)
  some { ssid := acc.1.getD ("N/A"), ip := acc.2.getD ("N/A") }

/-! ## Device bridge client (src/adb/client.rs)

The subprocess results are passed in as explicit oracle values: a None
models a failed bridge call. -/

/-- The results of the per-device diagnostic shell calls made by
fetch_device_info, one field per subcommand. -/
structure DeviceShellOracle where
  getprop : Option String
  battery : Option String
  storage : Option String
  meminfo : Option String
  wmSize : Option String
  wmDensity : Option String
  wifi : Option String

/-- The serial-to-avd-name pairs built by avds_with_status: one name query
per emulator-kind device; a failed query contributes nothing. -/
def serialToAvd (nameOf : String → Option String) (devices : List Device) :
    List (String × String) :=
  (devices.filter (fun d => d.connectionType = ConnectionType.emulator)).filterMap
    (fun d => (nameOf d.serial).map (fun n => (d.serial, n)))

/-- The append loop at the end of avds_with_status: running emulators whose
name is not yet present are appended as synthesized entries. -/
def appendRunning (acc : List Avd) (p : String × String) : List Avd :=
  if acc.any (fun a => a.name = p.2) then acc
  else acc ++ [{ name := p.2, runningSerial := some p.1 }]

/-- AdbClient::avds_with_status: declared AVD names (empty on a failed
list_avds call) joined with the queried running-emulator names, then the
undeclared running names appended. -/
def avdsWithStatus (listAvdsRes : Option (List String)) (nameOf : String → Option String)
    (devices : List Device) : List Avd :=
  let avdNames := listAvdsRes.getD []
  let s2a := serialToAvd nameOf devices
  let avds := avdNames.map (fun name =>
    { name := name,
      runningSerial := (s2a.find? (fun p => p.2 = name)).map Prod.fst : Avd })
  s2a.foldl appendRunning avds

/-- The connection-kind label used by fetch_device_info. -/
def connLabel : ConnectionType → String
  | .usb => "USB"
  | .tcp => "TCP"
  | .emulator => "Emulator"

/-- AdbClient::fetch_device_info: assemble the telemetry record from the
per-subcommand results; every bridge failure degrades to an absent or
placeholder field and the record is always produced (the source returns
Ok unconditionally). -/
def fetchDeviceInfo (o : DeviceShellOracle) (d : Device) : DeviceInfo :=
  let props := parseGetprop (o.getprop.getD "")
  let battery := o.battery.bind parseBattery
  let storage := o.storage.bind parseStorage
  let ram := o.meminfo.bind parseRam
  let screen :=
    match o.wmSize.bind parseScreenSize, o.wmDensity.bind parseScreenDensity with
    | some res, some den => some { resolution := res, density := den : ScreenInfo }
    | some res, none => some { resolution := res, density := "N/A" : ScreenInfo }
    | _, _ => none
  let wifi := o.wifi.bind parseWifi
  let model := if props.model ≠ "" then props.model else d.displayName
  { serial := d.serial
    model := model
    androidVersion := if props.androidVersion = "" then "N/A" else props.androidVersion
    apiLevel := if props.apiLevel = "" then "N/A" else props.apiLevel
    state := d.state.toDisplay
    connectionType := connLabel d.connectionType
    abi := if props.abi = "" then "N/A" else props.abi
    locale := if props.locale = "" then "N/A" else props.locale
    battery := battery
    storage := storage
    ram := ram
    screen := screen
    wifi := wifi }

/-! ## Commands and messages (src/command.rs, src/msg.rs) -/

/-- Pane (src/components/panes/mod.rs), with its fixed focus cycle. -/
inductive Pane where
  | deviceList
  | emulators
  | content
deriving DecidableEq, Repr

def Pane.next : Pane → Pane
  | .deviceList => .emulators
  | .emulators => .content
  | .content => .deviceList

def Pane.prev : Pane → Pane
  | .deviceList => .content
  | .emulators => .deviceList
  | .content => .emulators

inductive Command where
  | startEmulator (name : String)
  | killEmulator (serial : String)
  | openEmulatorsModal
  | closeEmulatorsModal
  | refreshDevices
  | refreshDeviceInfo (serial : String)
  | disconnectDevice (serial : String)
  | deviceSelected (device : Option Device)
  | focus (pane : Pane)
deriving DecidableEq, Repr

/-- A raw key token; the config loader maps it to an action-name string. -/
def Key := String
deriving DecidableEq, Repr

/-- A per-section key-to-action lookup table supplied by the config loader. -/
def SectionKeymap := Key → Option String

/-- Msg (src/msg.rs); the Tick carries whether the pane's refresh interval
has elapsed, which the sources read from a wall clock. -/
inductive Msg where
  | tick (intervalElapsed : Bool)
  | devicesUpdated (devices : List Device)
  | deviceSelected (device : Option Device)
  | deviceInfoUpdated (info : DeviceInfo)
  | keyPress (key : Key)
deriving DecidableEq

/-! ## Devices pane (src/components/panes/devices.rs) -/

inductive DeviceAction where
  | up
  | down
  | disconnect
  | refresh
  | openEmulators
deriving DecidableEq, Repr

/-- DeviceAction::from_str. -/
def DeviceAction.fromStr? (s : String) : Option DeviceAction :=
  if s = "Up" then some .up
  else if s = "Down" then some .down
  else if s = "Disconnect" then some .disconnect
  else if s = "Refresh" then some .refresh
  else if s = "OpenEmulators" then some .openEmulators
  else none

/-- DevicesPane state; the keymap is passed to update separately and the
refresh clock is modelled on the Tick message. -/
structure DevicesPane where
  devices : List Device
  selectedIndex : Nat
  lastSelectedSerial : Option String
deriving DecidableEq, Repr

def DevicesPane.new (devices : List Device) : DevicesPane :=
  { devices := devices, selectedIndex := 0, lastSelectedSerial := none }

def DevicesPane.selectedDevice (p : DevicesPane) : Option Device :=
  p.devices.get? p.selectedIndex

/-- select_previous: saturating decrement. -/
def DevicesPane.selectPrevious (p : DevicesPane) : DevicesPane :=
  { p with selectedIndex := p.selectedIndex - 1 }

/-- select_next: increment clamped to the last index, no-op when empty. -/
def DevicesPane.selectNext (p : DevicesPane) : DevicesPane :=
  if p.devices.isEmpty then p
  else { p with selectedIndex := min (p.selectedIndex + 1) (p.devices.length - 1) }

/-- clamp_selection: 0 when empty, else clamped to the last index. -/
def DevicesPane.clampSelection (p : DevicesPane) : DevicesPane :=
  if p.devices.isEmpty then { p with selectedIndex := 0 }
  else { p with selectedIndex := min p.selectedIndex (p.devices.length - 1) }

/-- selection_changed_command: emits DeviceSelected exactly when the serial
at the current index differs from the recorded one, updating the record. -/
def DevicesPane.selectionChangedCommand (p : DevicesPane) : DevicesPane × Option Command :=
  let newSerial := p.selectedDevice.map Device.serial
  if newSerial ≠ p.lastSelectedSerial then
    ({ p with lastSelectedSerial := newSerial },
     some (Command.deviceSelected p.selectedDevice))
  else (p, none)

/-- disconnect_command: kill for emulators, disconnect for TCP, nothing
for USB. -/
def DevicesPane.disconnectCommand (p : DevicesPane) : Option Command :=
  match p.selectedDevice with
  | none => none
  | some device =>
    match device.connectionType with
    | .emulator => some (Command.killEmulator device.serial)
    | .tcp => some (Command.disconnectDevice device.serial)
    | .usb => none

/-- DevicesPane::handle_action. -/
def DevicesPane.handleAction (p : DevicesPane) (a : DeviceAction) :
    DevicesPane × List Command :=
  match a with
  | .up =>
    let p := p.selectPrevious
    match p.selectionChangedCommand with
    | (p, some cmd) => (p, [cmd])
    | (p, none) => (p, [])
  | .down =>
    let p := p.selectNext
    match p.selectionChangedCommand with
    | (p, some cmd) => (p, [cmd])
    | (p, none) => (p, [])
  | .disconnect =>
    match p.disconnectCommand with
    | some cmd => (p, [cmd])
    | none => (p, [])
  | .refresh => (p, [Command.refreshDevices])
  | .openEmulators => (p, [Command.openEmulatorsModal])

/-- The Msg::DevicesUpdated branch of DevicesPane::update: replace the
list, re-clamp, emit the selection change if any. -/
def DevicesPane.applyDevicesUpdated (p : DevicesPane) (devices : List Device) :
    DevicesPane × List Command :=
  let p := { p with devices := devices }
  let p := p.clampSelection
  match p.selectionChangedCommand with
  | (p, some cmd) => (p, [cmd])
  | (p, none) => (p, [])

/-- DevicesPane::update (Component impl). -/
def DevicesPane.update (km : SectionKeymap) (p : DevicesPane) (m : Msg) :
    DevicesPane × List Command :=
  match m with
  | .keyPress key =>
    match (km key).bind DeviceAction.fromStr? with
    | some a => p.handleAction a
    | none => (p, [])
  | .tick elapsed => if elapsed then (p, [Command.refreshDevices]) else (p, [])
  | .devicesUpdated devices => p.applyDevicesUpdated devices
  | _ => (p, [])

/-! ## Content pane (src/components/panes/content.rs) -/

structure ContentPane where
  deviceInfo : Option DeviceInfo
  selectedSerial : Option String
deriving DecidableEq, Repr

def ContentPane.new : ContentPane :=
  { deviceInfo := none, selectedSerial := none }

/-- ContentPane::update. -/
def ContentPane.update (c : ContentPane) (m : Msg) : ContentPane × List Command :=
  match m with
  | .tick elapsed =>
    match c.selectedSerial with
    | some serial => if elapsed then (c, [Command.refreshDeviceInfo serial]) else (c, [])
    | none => (c, [])
  | .deviceSelected device =>
    let newSerial := device.map Device.serial
    if newSerial ≠ c.selectedSerial then
      let c := { c with selectedSerial := newSerial, deviceInfo := none }
      match newSerial with
      | some serial => (c, [Command.refreshDeviceInfo serial])
      | none => (c, [])
    else (c, [])
  | .deviceInfoUpdated info =>
    if c.selectedSerial = some info.serial then
      ({ c with deviceInfo := some info }, [])
    else (c, [])
  | _ => (c, [])

/-! ## Emulators modal (src/components/modals/emulators.rs) -/

structure EmulatorsModal where
  items : List Avd
  selectedIndex : Nat
deriving DecidableEq, Repr

def EmulatorsModal.new (items : List Avd) : EmulatorsModal :=
  { items := items, selectedIndex := 0 }

inductive EmulatorAction where
  | up
  | down
  | select
  | kill
deriving DecidableEq, Repr

/-- EmulatorAction::from_str. -/
def EmulatorAction.fromStr? (s : String) : Option EmulatorAction :=
  if s = "Up" then some .up
  else if s = "Down" then some .down
  else if s = "Select" then some .select
  else if s = "Kill" then some .kill
  else none

/-- EmulatorsModal::handle_key (Component impl): the modal's own key
handler, moving the picker selection and starting or killing emulators. -/
def EmulatorsModal.handleKey (km : SectionKeymap) (m : EmulatorsModal) (key : Key) :
    EmulatorsModal × List Command :=
  match (km key).bind EmulatorAction.fromStr? with
  | none => (m, [])
  | some .up => ({ m with selectedIndex := m.selectedIndex - 1 }, [])
  | some .down =>
    if m.items.isEmpty then (m, [])
    else ({ m with selectedIndex := min (m.selectedIndex + 1) (m.items.length - 1) }, [])
  | some .kill =>
    match m.items.get? m.selectedIndex with
    | some avd =>
      match avd.runningSerial with
      | some serial => (m, [Command.killEmulator serial])
      | none => (m, [])
    | none => (m, [])
  | some .select =>
    match m.items.get? m.selectedIndex with
    | some avd =>
      if avd.isRunning then (m, [Command.closeEmulatorsModal, Command.focus Pane.content])
      else (m, [Command.startEmulator avd.name])
    | none => (m, [])

/-- EmulatorsModal::update (Component impl): ignores every message and
returns no commands, exactly as in the source. -/
def EmulatorsModal.update (m : EmulatorsModal) (_msg : Msg) : EmulatorsModal × List Command :=
  (m, [])

/-- HelpModal::update (Component impl): ignores every message. -/
def HelpModal.update (m : Msg) : List Command :=
  match m with
  | _ => []

/-! ## App (src/app.rs) -/

inductive Modal where
  | help
  | emulators (modal : EmulatorsModal)
deriving DecidableEq, Repr

inductive GlobalAction where
  | quit
  | cycleFocus
  | cycleFocusBackwards
  | toggleHelp
  | closeModal
deriving DecidableEq, Repr

/-- GlobalAction::from_str. -/
def GlobalAction.fromStr? (s : String) : Option GlobalAction :=
  if s = "Quit" then some .quit
  else if s = "CycleFocus" then some .cycleFocus
  else if s = "CycleFocusBackwards" then some .cycleFocusBackwards
  else if s = "ToggleHelp" then some .toggleHelp
  else if s = "CloseModal" then some .closeModal
  else none

/-- The keymap sections of the loaded config used by App::handle_key and
the pane updates. -/
structure AppConfig where
  globalKeymap : SectionKeymap
  deviceKeymap : SectionKeymap
  emulatorsKeymap : SectionKeymap

/-- The mutable App state (rendering, clocks and channels aside). -/
structure AppState where
  running : Bool
  focus : Pane
  modal : Option Modal
  devices : DevicesPane
  content : ContentPane
deriving DecidableEq, Repr

/-- The device-bridge capability as seen by App::execute_commands: the
fire-and-forget calls report success only, the list calls may fail, and
the per-device diagnostics come back per serial. -/
structure Bridge where
  startEmulator : String → Bool
  killEmulator : String → Bool
  disconnectDevice : String → Bool
  listDevices : Option (List Device)
  listAvds : Option (List String)
  avdName : String → Option String
  shell : String → DeviceShellOracle

/-- App::handle_global_action. -/
def App.handleGlobalAction (s : AppState) (a : GlobalAction) : AppState :=
  match a with
  | .quit => { s with running := false }
  | .cycleFocus => { s with focus := s.focus.next }
  | .cycleFocusBackwards => { s with focus := s.focus.prev }
  | .toggleHelp => { s with modal := some Modal.help }
  | .closeModal => { s with modal := none }

/-- The focused-pane dispatch of App::handle_key. The source's
focused_pane match covers only DeviceList and Content; the Emulators
variant has no arm there, so it is modelled as a no-op. -/
def App.focusedUpdate (cfg : AppConfig) (s : AppState) (m : Msg) : AppState × List Command :=
  match s.focus with
  | .deviceList =>
    let (p, cmds) := DevicesPane.update cfg.deviceKeymap s.devices m
    ({ s with devices := p }, cmds)
  | .content =>
    let (c, cmds) := ContentPane.update s.content m
    ({ s with content := c }, cmds)
  | .emulators => (s, [])

/-- The routing part of App::handle_key: direct state changes plus the
commands handed to execute_commands. Note that in both modal branches the
source forwards the key as Msg::KeyPress to the modal's update method
(HelpModal::update and EmulatorsModal::update), not to handle_key. -/
def App.handleKeyRoute (cfg : AppConfig) (s : AppState) (key : Key) :
    AppState × List Command :=
  let ga := (cfg.globalKeymap key).bind GlobalAction.fromStr?
  match s.modal with
  | some Modal.help =>
    match ga with
    | some .closeModal => ({ s with modal := none }, [])
    | some .toggleHelp => ({ s with modal := none }, [])
    | some .quit => ({ s with running := false }, [])
    | _ => (s, HelpModal.update (Msg.keyPress key))
  | some (Modal.emulators em) =>
    match ga with
    | some .closeModal => ({ s with modal := none }, [])
    | some .toggleHelp => ({ s with modal := some Modal.help }, [])
    | some .quit => ({ s with running := false }, [])
    | _ =>
      let (em, cmds) := EmulatorsModal.update em (Msg.keyPress key)
      ({ s with modal := some (Modal.emulators em) }, cmds)
  | none =>
    match ga with
    | some a => (App.handleGlobalAction s a, [])
    | none => App.focusedUpdate cfg s (Msg.keyPress key)

/-- One command of App::execute_commands: the next state and the messages
sent back on the channel. Failed bridge calls are swallowed: the state does
not advance and no message is produced for that command. -/
def App.executeOne (bridge : Bridge) (_cfg : AppConfig) (s : AppState) (cmd : Command) :
    AppState × List Msg :=
  match cmd with
  | .startEmulator name =>
    let _ := bridge.startEmulator name
    (s, [])
  | .killEmulator serial =>
    let _ := bridge.killEmulator serial
    (s, [])
  | .openEmulatorsModal =>
    let emulators := avdsWithStatus bridge.listAvds bridge.avdName s.devices.devices
    ({ s with modal := some (Modal.emulators (EmulatorsModal.new emulators)) }, [])
  | .closeEmulatorsModal => ({ s with modal := none }, [])
  | .disconnectDevice serial =>
    let _ := bridge.disconnectDevice serial
    (s, [])
  | .focus pane => ({ s with focus := pane }, [])
  | .refreshDevices =>
    match bridge.listDevices with
    | some devices => (s, [Msg.devicesUpdated devices])
    | none => (s, [])
  | .refreshDeviceInfo serial =>
    match s.devices.devices.find? (fun d => d.serial = serial) with
    | some device => (s, [Msg.deviceInfoUpdated (fetchDeviceInfo (bridge.shell serial) device)])
    | none => (s, [])
  | .deviceSelected device => (s, [Msg.deviceSelected device])

/-- App::execute_commands over a command list, collecting sent messages. -/
def App.executeCommands (bridge : Bridge) (cfg : AppConfig) (s : AppState) :
    List Command → AppState × List Msg
  | [] => (s, [])
  | cmd :: rest =>
    let (s, msgs) := App.executeOne bridge cfg s cmd
    let (s, msgs2) := App.executeCommands bridge cfg s rest
    (s, msgs ++ msgs2)

/-- App::handle_key followed by the execute_commands call it performs. -/
def App.handleKey (cfg : AppConfig) (bridge : Bridge) (s : AppState) (key : Key) :
    AppState × List Msg :=
  let (s, cmds) := App.handleKeyRoute cfg s key
  App.executeCommands bridge cfg s cmds

/-! ## Claim C1: the selection index invariant of the devices pane -/

/-- The DevicesPane operations the invariant claim ranges over: moving the
selection up or down (DeviceAction::Up/Down) and replacing the list
(Msg::DevicesUpdated). -/
inductive DevOp where
  | up
  | down
  | replace (devices : List Device)

def DevicesPane.applyOp (p : DevicesPane) (op : DevOp) : DevicesPane :=
  match op with
  | .up => (p.handleAction DeviceAction.up).1
  | .down => (p.handleAction DeviceAction.down).1
  | .replace devices => (p.applyDevicesUpdated devices).1

/-- The selection-index invariant: 0 on an empty list, within bounds
otherwise. -/
def selInvariant (p : DevicesPane) : Prop :=
  (p.devices = [] → p.selectedIndex = 0) ∧
  (p.devices ≠ [] → p.selectedIndex < p.devices.length)

lemma scc_fst (p : DevicesPane) :
    p.selectionChangedCommand.1 =
      { p with lastSelectedSerial := p.selectedDevice.map Device.serial } := by
  unfold DevicesPane.selectionChangedCommand
  by_cases h : p.selectedDevice.map Device.serial = p.lastSelectedSerial
  · simp [h]
  · simp [h]

lemma selectPrevious_eq (L : List Device) (i : Nat) (ser : Option String) :
    DevicesPane.selectPrevious ⟨L, i, ser⟩ = ⟨L, i - 1, ser⟩ :=
  rfl

lemma selectNext_eq (L : List Device) (i : Nat) (ser : Option String) :
    DevicesPane.selectNext ⟨L, i, ser⟩ =
      ⟨L, if L = [] then i else min (i + 1) (L.length - 1), ser⟩ := by
  cases L <;> simp [DevicesPane.selectNext]

lemma clampSelection_eq (L : List Device) (i : Nat) (ser : Option String) :
    DevicesPane.clampSelection ⟨L, i, ser⟩ =
      ⟨L, if L = [] then 0 else min i (L.length - 1), ser⟩ := by
  cases L <;> simp [DevicesPane.clampSelection]

lemma handleAction_up_fst (p : DevicesPane) :
    (p.handleAction DeviceAction.up).1 = p.selectPrevious.selectionChangedCommand.1 := by
  unfold DevicesPane.handleAction
  rcases h : p.selectPrevious.selectionChangedCommand with ⟨q, c⟩
  cases c <;> simp [h]

lemma handleAction_down_fst (p : DevicesPane) :
    (p.handleAction DeviceAction.down).1 = p.selectNext.selectionChangedCommand.1 := by
  unfold DevicesPane.handleAction
  rcases h : p.selectNext.selectionChangedCommand with ⟨q, c⟩
  cases c <;> simp [h]

lemma applyDevicesUpdated_fst (p : DevicesPane) (L : List Device) :
    (p.applyDevicesUpdated L).1 =
      ({ p with devices := L } : DevicesPane).clampSelection.selectionChangedCommand.1 := by
  unfold DevicesPane.applyDevicesUpdated
  rcases h : ({ p with devices := L } : DevicesPane).clampSelection.selectionChangedCommand
    with ⟨q, c⟩
  cases c <;> simp [h]

lemma selInvariant_mk {L : List Device} {i : Nat} {ser : Option String}
    (h0 : L = [] → i = 0) (h1 : L ≠ [] → i < L.length) :
    selInvariant ⟨L, i, ser⟩ :=
  ⟨h0, h1⟩

lemma selInvariant_scc {p : DevicesPane} (hp : selInvariant p) :
    selInvariant p.selectionChangedCommand.1 := by
  obtain ⟨L, i, ser⟩ := p
  rw [scc_fst]
  exact ⟨hp.1, hp.2⟩

lemma selInvariant_selectPrevious {p : DevicesPane} (hp : selInvariant p) :
    selInvariant p.selectPrevious := by
  obtain ⟨L, i, ser⟩ := p
  rw [selectPrevious_eq]
  have h0 : L = [] → i = 0 := hp.1
  have h1 : L ≠ [] → i < L.length := hp.2
  exact selInvariant_mk (fun h => by have := h0 h; omega) (fun h => by
    have := h1 h
    omega)

lemma selInvariant_selectNext {p : DevicesPane} (hp : selInvariant p) :
    selInvariant p.selectNext := by
  obtain ⟨L, i, ser⟩ := p
  rw [selectNext_eq]
  have h0 : L = [] → i = 0 := hp.1
  by_cases h : L = []
  · simp only [h, if_true]
    subst h
    exact selInvariant_mk (fun _ => h0 rfl) (fun hc => absurd rfl hc)
  · simp only [h, if_false]
    have hlen : 0 < L.length := List.length_pos.mpr h
    exact selInvariant_mk (fun hc => absurd hc h) (fun _ => by omega)

lemma selInvariant_clampSelection (p : DevicesPane) :
    selInvariant p.clampSelection := by
  obtain ⟨L, i, ser⟩ := p
  rw [clampSelection_eq]
  by_cases h : L = []
  · simp only [h, if_true]
    exact selInvariant_mk (fun _ => rfl) (fun hc => absurd rfl hc)
  · simp only [h, if_false]
    have hlen : 0 < L.length := List.length_pos.mpr h
    exact selInvariant_mk (fun hc => absurd hc h) (fun _ => by omega)

lemma selInvariant_applyOp {p : DevicesPane} (op : DevOp) (hp : selInvariant p) :
    selInvariant (p.applyOp op) := by
  cases op with
  | up =>
    rw [DevicesPane.applyOp, handleAction_up_fst]
    exact selInvariant_scc (selInvariant_selectPrevious hp)
  | down =>
    rw [DevicesPane.applyOp, handleAction_down_fst]
    exact selInvariant_scc (selInvariant_selectNext hp)
  | replace L =>
    rw [DevicesPane.applyOp, applyDevicesUpdated_fst]
    exact selInvariant_scc (selInvariant_clampSelection _)

lemma selInvariant_new (init : List Device) : selInvariant (DevicesPane.new init) :=
  selInvariant_mk (fun _ => rfl) (fun h => List.length_pos.mpr h)

/-- C1: for every device list and every sequence of DevicesPane operations
(selection up, selection down, list replacement via DevicesUpdated), the
selection index is in bounds when the list is non-empty and 0 when it is
empty; every list replacement re-clamps it. -/
theorem devices_pane_selection_invariant (init : List Device) (ops : List DevOp) :
    selInvariant (ops.foldl DevicesPane.applyOp (DevicesPane.new init)) := by
  have main : ∀ (l : List DevOp) (p : DevicesPane), selInvariant p →
      selInvariant (l.foldl DevicesPane.applyOp p) := by
    intro l
    induction l with
    | nil => intro p hp; exact hp
    | cons op rest ih =>
      intro p hp
      exact ih _ (selInvariant_applyOp op hp)
  exact main ops _ (selInvariant_new init)

def devA : Device :=
  { serial := "A", state := .online, model := none, product := none,
    transportId := none, connectionType := .usb }

def devB : Device :=
  { serial := "B", state := .online, model := none, product := none,
    transportId := none, connectionType := .usb }

def devC : Device :=
  { serial := "C", state := .online, model := none, product := none,
    transportId := none, connectionType := .usb }

/-- A concrete run of the C1 invariant theorem. -/
theorem devices_pane_selection_invariant_witness :
    selInvariant ([DevOp.down, DevOp.down, DevOp.replace [devA], DevOp.up,
      DevOp.replace []].foldl DevicesPane.applyOp (DevicesPane.new [devA, devB, devC])) :=
  devices_pane_selection_invariant [devA, devB, devC]
    [DevOp.down, DevOp.down, DevOp.replace [devA], DevOp.up, DevOp.replace []]

/-! ## Claims C4, C5: the DevicesUpdated reconciliation -/

/-- The index produced by clamp_selection for a replaced list. -/
def clampedIndex (i : Nat) (L : List Device) : Nat :=
  if L = [] then 0 else min i (L.length - 1)

lemma applyDevicesUpdated_eq (dv L : List Device) (i : Nat) (ser : Option String) :
    DevicesPane.applyDevicesUpdated ⟨dv, i, ser⟩ L =
      (⟨L, clampedIndex i L, (L.get? (clampedIndex i L)).map Device.serial⟩,
        if (L.get? (clampedIndex i L)).map Device.serial ≠ ser then
          [Command.deviceSelected (L.get? (clampedIndex i L))]
        else []) := by
  unfold DevicesPane.applyDevicesUpdated DevicesPane.selectionChangedCommand
    DevicesPane.selectedDevice clampedIndex
  by_cases h : (L.get? (if L = [] then 0 else min i (L.length - 1))).map Device.serial = ser
  all_goals simp only [List.get?_eq_getElem?] at h
  · simp [clampSelection_eq, h]
  · simp [clampSelection_eq, h]

lemma clampedIndex_idem (i : Nat) (L : List Device) :
    clampedIndex (clampedIndex i L) L = clampedIndex i L := by
  unfold clampedIndex
  by_cases h : L = []
  · simp [h]
  · simp [h]

/-- C4: on a list replacement the DeviceSelected notification is emitted
iff the serial at the newly clamped index differs from the recorded
selected serial; the resulting state records that serial and the clamped
index, so replaying the identical roster emits nothing. -/
theorem devices_updated_selection_change_iff (dv L : List Device) (i : Nat)
    (ser : Option String) :
    ((DevicesPane.applyDevicesUpdated ⟨dv, i, ser⟩ L).2 ≠ [] ↔
      (L.get? (clampedIndex i L)).map Device.serial ≠ ser) ∧
    (DevicesPane.applyDevicesUpdated ⟨dv, i, ser⟩ L).1 =
      ⟨L, clampedIndex i L, (L.get? (clampedIndex i L)).map Device.serial⟩ ∧
    ((DevicesPane.applyDevicesUpdated ⟨dv, i, ser⟩ L).1.applyDevicesUpdated L).2 = [] := by
  refine ⟨?_, ?_, ?_⟩
  · rw [applyDevicesUpdated_eq]
    by_cases h : (L.get? (clampedIndex i L)).map Device.serial = ser
    · simp [h]
    · simp [h]
  · rw [applyDevicesUpdated_eq]
  · rw [applyDevicesUpdated_eq]
    rw [applyDevicesUpdated_eq]
    simp [clampedIndex_idem]

/-- A concrete run of the C4 theorem. -/
theorem devices_updated_selection_change_iff_witness :
    ((DevicesPane.applyDevicesUpdated ⟨[], 0, none⟩ [devA]).2 ≠ [] ↔
      ([devA].get? (clampedIndex 0 [devA])).map Device.serial ≠ none) ∧
    ((DevicesPane.applyDevicesUpdated ⟨[], 0, none⟩ [devA]).1.applyDevicesUpdated [devA]).2
      = [] :=
  ⟨(devices_updated_selection_change_iff [] [devA] 0 none).1,
   (devices_updated_selection_change_iff [] [devA] 0 none).2.2⟩

/-- C5 as stated is false: with devices [A,B,C], selection index 1 and
recorded serial B, replacing the list by [A,C] (so the selected device
disappeared) leaves the index at 1, not 0. -/
theorem missing_selected_device_counterexample :
    (DevicesPane.applyDevicesUpdated ⟨[devA, devB, devC], 1, some "B"⟩ [devA, devC]).1.selectedIndex
      = 1 ∧
    (1 : Nat) ≠ 0 ∧
    (∀ d ∈ [devA, devC], d.serial ≠ "B") ∧
    [devA, devC] ≠ ([] : List Device) := by
  decide

/-- C5 amended: when the recorded selected serial is absent from the new
list, the index re-clamps to min(previous, len-1) (0 when the list is
empty) and a fresh DeviceSelected notification always fires. -/
theorem missing_selected_device_reclamps (dv L : List Device) (i : Nat) (s : String)
    (habsent : ∀ d ∈ L, d.serial ≠ s) :
    (DevicesPane.applyDevicesUpdated ⟨dv, i, some s⟩ L).1.selectedIndex = clampedIndex i L ∧
    (DevicesPane.applyDevicesUpdated ⟨dv, i, some s⟩ L).2 =
      [Command.deviceSelected (L.get? (clampedIndex i L))] := by
  have hne : (L.get? (clampedIndex i L)).map Device.serial ≠ some s := by
    cases hL : L.get? (clampedIndex i L) with
    | none => simp
    | some d =>
      have hd : d ∈ L := List.get?_mem hL
      simp [habsent d hd]
  rw [applyDevicesUpdated_eq]
  exact ⟨rfl, by dsimp only; rw [if_pos hne]⟩

/-- A concrete run of the amended C5 theorem. -/
theorem missing_selected_device_reclamps_witness :
    (DevicesPane.applyDevicesUpdated ⟨[devA, devB, devC], 1, some "B"⟩ [devA, devC]).1.selectedIndex
      = clampedIndex 1 [devA, devC] ∧
    (DevicesPane.applyDevicesUpdated ⟨[devA, devB, devC], 1, some "B"⟩ [devA, devC]).2 =
      [Command.deviceSelected ([devA, devC].get? (clampedIndex 1 [devA, devC]))] :=
  missing_selected_device_reclamps [devA, devB, devC] [devA, devC] 1 "B" (by decide)

/-! ## Claim C10: the content pane only holds telemetry for the selection -/

def ContentPane.applyMsgs (c : ContentPane) (ms : List Msg) : ContentPane :=
  ms.foldl (fun c m => (c.update m).1) c

/-- The coherence invariant: a held telemetry record belongs to the
currently selected serial. -/
def contentInv (c : ContentPane) : Prop :=
  ∀ i, c.deviceInfo = some i → c.selectedSerial = some i.serial

lemma contentInv_update {c : ContentPane} (hc : contentInv c) (m : Msg) :
    contentInv (c.update m).1 := by
  obtain ⟨info, ser⟩ := c
  cases m with
  | tick e => cases ser <;> cases e <;> exact hc
  | devicesUpdated ds => exact hc
  | keyPress k => exact hc
  | deviceSelected dev =>
    unfold ContentPane.update
    dsimp only
    split
    · split
      · intro i hi
        simp at hi
      · intro i hi
        simp at hi
    · exact hc
  | deviceInfoUpdated j =>
    unfold ContentPane.update
    dsimp only
    split
    · next h =>
      intro i hi
      simp at hi
      subst hi
      simpa using h
    · exact hc

/-- C10: from the initial state, every reachable ContentPane state only
holds a telemetry record whose serial is the selected one; a
DeviceInfoUpdated for a different serial is discarded with no state change
and no commands; a selection change clears the held record before the
refetch command is issued. -/
theorem content_pane_serial_coherence :
    (∀ ms : List Msg, contentInv (ContentPane.applyMsgs ContentPane.new ms)) ∧
    (∀ (c : ContentPane) (info : DeviceInfo), c.selectedSerial ≠ some info.serial →
      c.update (Msg.deviceInfoUpdated info) = (c, [])) ∧
    (∀ (c : ContentPane) (dev : Option Device), dev.map Device.serial ≠ c.selectedSerial →
      (c.update (Msg.deviceSelected dev)).1.deviceInfo = none ∧
      (∀ s, dev.map Device.serial = some s →
        c.update (Msg.deviceSelected dev) =
          (⟨none, some s⟩, [Command.refreshDeviceInfo s]))) := by
  refine ⟨?_, ?_, ?_⟩
  · intro ms
    have main : ∀ (l : List Msg) (c : ContentPane), contentInv c →
        contentInv (ContentPane.applyMsgs c l) := by
      intro l
      induction l with
      | nil => intro c hc; exact hc
      | cons m rest ih =>
        intro c hc
        exact ih _ (contentInv_update hc m)
    exact main ms _ (fun i hi => by simp [ContentPane.new] at hi)
  · intro c info h
    unfold ContentPane.update
    dsimp only
    rw [if_neg h]
  · intro c dev h
    constructor
    · unfold ContentPane.update
      dsimp only
      rw [if_pos h]
      split <;> rfl
    · intro s hs
      unfold ContentPane.update
      dsimp only
      rw [if_pos h, hs]

def infoB : DeviceInfo :=
  { serial := "B", model := "m", androidVersion := "v", apiLevel := "a", state := "s",
    connectionType := "c", abi := "ab", locale := "l", battery := none, storage := none,
    ram := none, screen := none, wifi := none }

/-- A concrete run of the C10 theorem. -/
theorem content_pane_serial_coherence_witness :
    ContentPane.update ⟨none, some "A"⟩ (Msg.deviceInfoUpdated infoB) =
      (⟨none, some "A"⟩, []) ∧
    contentInv (ContentPane.applyMsgs ContentPane.new []) :=
  ⟨content_pane_serial_coherence.2.1 ⟨none, some "A"⟩ infoB (by decide),
   content_pane_serial_coherence.1 []⟩

/-! ## Claims C2, C3: modal input capture -/

def oracleFail : DeviceShellOracle :=
  { getprop := none, battery := none, storage := none, meminfo := none,
    wmSize := none, wmDensity := none, wifi := none }

/-- A bridge on which every fallible call fails and the fire-and-forget
calls succeed. -/
def bridge0 : Bridge :=
  { startEmulator := fun _ => true, killEmulator := fun _ => true,
    disconnectDevice := fun _ => true, listDevices := none, listAvds := none,
    avdName := fun _ => none, shell := fun _ => oracleFail }

lemma executeCommands_nil (bridge : Bridge) (cfg : AppConfig) (s : AppState) :
    App.executeCommands bridge cfg s [] = (s, []) :=
  rfl

lemma helpModal_update_eq (m : Msg) : HelpModal.update m = [] :=
  rfl

lemma handleKey_help_eq (cfg : AppConfig) (bridge : Bridge) (run : Bool) (foc : Pane)
    (devs : DevicesPane) (cont : ContentPane) (key : Key) :
    App.handleKey cfg bridge ⟨run, foc, some Modal.help, devs, cont⟩ key =
      match (cfg.globalKeymap key).bind GlobalAction.fromStr? with
      | some GlobalAction.closeModal => (⟨run, foc, none, devs, cont⟩, [])
      | some GlobalAction.toggleHelp => (⟨run, foc, none, devs, cont⟩, [])
      | some GlobalAction.quit => (⟨false, foc, some Modal.help, devs, cont⟩, [])
      | _ => (⟨run, foc, some Modal.help, devs, cont⟩, []) := by
  cases h : (cfg.globalKeymap key).bind GlobalAction.fromStr? with
  | none =>
    simp only [App.handleKey, App.handleKeyRoute, h, helpModal_update_eq, executeCommands_nil]
  | some ga =>
    cases ga <;>
      simp only [App.handleKey, App.handleKeyRoute, h, helpModal_update_eq, executeCommands_nil]

/-- C2 amended: while the Help modal is open, no key press ever changes the
panes or the focus and no message is produced; a key bound to CloseModal or
ToggleHelp closes the modal, a key bound to Quit stops the app, and every
other key leaves the state entirely unchanged. -/
theorem help_modal_input_capture (cfg : AppConfig) (bridge : Bridge) (s : AppState)
    (key : Key) (hm : s.modal = some Modal.help) :
    (App.handleKey cfg bridge s key).1.devices = s.devices ∧
    (App.handleKey cfg bridge s key).1.content = s.content ∧
    (App.handleKey cfg bridge s key).1.focus = s.focus ∧
    (App.handleKey cfg bridge s key).2 = [] ∧
    ((cfg.globalKeymap key).bind GlobalAction.fromStr? = some GlobalAction.closeModal →
      App.handleKey cfg bridge s key = ({ s with modal := none }, [])) ∧
    ((cfg.globalKeymap key).bind GlobalAction.fromStr? = some GlobalAction.toggleHelp →
      App.handleKey cfg bridge s key = ({ s with modal := none }, [])) ∧
    ((cfg.globalKeymap key).bind GlobalAction.fromStr? = some GlobalAction.quit →
      App.handleKey cfg bridge s key = ({ s with running := false }, [])) ∧
    (∀ ga, (cfg.globalKeymap key).bind GlobalAction.fromStr? = some ga →
      ga ≠ GlobalAction.closeModal → ga ≠ GlobalAction.toggleHelp → ga ≠ GlobalAction.quit →
      App.handleKey cfg bridge s key = (s, [])) ∧
    ((cfg.globalKeymap key).bind GlobalAction.fromStr? = none →
      App.handleKey cfg bridge s key = (s, [])) := by
  obtain ⟨run, foc, modal, devs, cont⟩ := s
  dsimp only at hm
  subst hm
  rw [handleKey_help_eq]
  cases h : (cfg.globalKeymap key).bind GlobalAction.fromStr? with
  | none => simp
  | some ga => cases ga <;> simp

def cfgQuit : AppConfig :=
  { globalKeymap := fun k => if k = "q" then some ("Quit") else none,
    deviceKeymap := fun _ => none, emulatorsKeymap := fun _ => none }

def sHelp : AppState :=
  { running := true, focus := Pane.deviceList, modal := some Modal.help,
    devices := DevicesPane.new [], content := ContentPane.new }

/-- C2 as stated is false: while Help is open, a key bound to Quit is
accepted (it stops the app, changing the state) although it is neither the
close-modal nor the toggle-help action and does not close the modal. -/
theorem help_modal_quit_counterexample :
    (App.handleKey cfgQuit bridge0 sHelp ("q")).1 ≠ sHelp ∧
    (App.handleKey cfgQuit bridge0 sHelp ("q")).1.modal = some Modal.help ∧
    (cfgQuit.globalKeymap ("q")).bind GlobalAction.fromStr? = some GlobalAction.quit := by
  decide

/-- A concrete run of the amended C2 theorem. -/
theorem help_modal_input_capture_witness :
    (App.handleKey cfgQuit bridge0 sHelp ("x")).1.devices = sHelp.devices ∧
    (App.handleKey cfgQuit bridge0 sHelp ("x")).2 = [] :=
  ⟨(help_modal_input_capture cfgQuit bridge0 sHelp ("x") rfl).1,
   (help_modal_input_capture cfgQuit bridge0 sHelp ("x") rfl).2.2.2.1⟩

def cfgEmu : AppConfig :=
  { globalKeymap := fun _ => none,
    deviceKeymap := fun _ => none,
    emulatorsKeymap := fun k => if k = "j" then some ("Down") else none }

def avdP4 : Avd := { name := "Pixel_4", runningSerial := none }

def avdP5 : Avd := { name := "Pixel_5", runningSerial := none }

def sEmu : AppState :=
  { running := true, focus := Pane.deviceList,
    modal := some (Modal.emulators (EmulatorsModal.new [avdP4, avdP5])),
    devices := DevicesPane.new [], content := ContentPane.new }

/-- C3: with the EmulatorPicker open and a key bound to the Down action in
the picker's keymap, App::handle_key routes the key into
EmulatorsModal::update, which drops it: the selection stays at 0 and no
command is produced, although the modal's own (never called) handle_key
would move the selection to 1. -/
theorem emulators_modal_keys_dead :
    App.handleKey cfgEmu bridge0 sEmu ("j") = (sEmu, []) ∧
    EmulatorsModal.update (EmulatorsModal.new [avdP4, avdP5]) (Msg.keyPress ("j")) =
      (EmulatorsModal.new [avdP4, avdP5], []) ∧
    EmulatorsModal.handleKey cfgEmu.emulatorsKeymap (EmulatorsModal.new [avdP4, avdP5]) ("j") =
      ({ items := [avdP4, avdP5], selectedIndex := 1 }, []) := by
  decide

/-! ## Claim C6: the emulator-list join -/

lemma mem_foldl_appendRunning {l : List (String × String)} {acc : List Avd} {a : Avd}
    (h : a ∈ acc) : a ∈ l.foldl appendRunning acc := by
  induction l generalizing acc with
  | nil => exact h
  | cons p rest ih =>
    apply ih
    unfold appendRunning
    split
    · exact h
    · exact List.mem_append_left _ h

lemma foldl_appendRunning_mem_name {l : List (String × String)} (acc : List Avd)
    {p : String × String} (hp : p ∈ l) :
    ∃ a ∈ l.foldl appendRunning acc, a.name = p.2 := by
  induction l generalizing acc with
  | nil => cases hp
  | cons q rest ih =>
    rcases List.mem_cons.mp hp with rfl | htail
    · show ∃ a ∈ rest.foldl appendRunning (appendRunning acc p), a.name = p.2
      by_cases h : acc.any (fun a => a.name = p.2) = true
      · obtain ⟨a, ha, hn⟩ := List.any_eq_true.mp h
        refine ⟨a, mem_foldl_appendRunning ?_, by simpa using hn⟩
        unfold appendRunning
        rw [if_pos h]
        exact ha
      · refine ⟨(⟨p.2, some p.1⟩ : Avd), mem_foldl_appendRunning ?_, rfl⟩
        unfold appendRunning
        rw [if_neg h]
        exact List.mem_append_right _ (List.mem_singleton_self _)
    · show ∃ a ∈ rest.foldl appendRunning (appendRunning acc q), a.name = p.2
      exact ih _ htail

lemma foldl_appendRunning_names_nodup {l : List (String × String)} {acc : List Avd}
    (h : (acc.map Avd.name).Nodup) : ((l.foldl appendRunning acc).map Avd.name).Nodup := by
  induction l generalizing acc with
  | nil => exact h
  | cons p rest ih =>
    apply ih
    unfold appendRunning
    split
    · exact h
    · next hno =>
      rw [List.map_append]
      have hno' : ∀ a ∈ acc, a.name ≠ p.2 := by
        intro a ha heq
        apply hno
        exact List.any_eq_true.mpr ⟨a, ha, by simp [heq]⟩
      refine List.Nodup.append h (by simp) ?_
      intro x hx
      obtain ⟨a, ha, rfl⟩ := List.mem_map.mp hx
      simp only [List.map_cons, List.map_nil, List.mem_singleton]
      exact hno' a ha

lemma foldl_appendRunning_mem {l : List (String × String)} {acc : List Avd} {a : Avd}
    (h : a ∈ l.foldl appendRunning acc) :
    a ∈ acc ∨ ∃ p ∈ l, a = ⟨p.2, some p.1⟩ := by
  induction l generalizing acc with
  | nil => exact Or.inl h
  | cons p rest ih =>
    rcases ih h with hacc | ⟨q, hq, rfl⟩
    · unfold appendRunning at hacc
      split at hacc
      · exact Or.inl hacc
      · rcases List.mem_append.mp hacc with h1 | h2
        · exact Or.inl h1
        · exact Or.inr ⟨p, List.mem_cons_self _ _, List.mem_singleton.mp h2⟩
    · exact Or.inr ⟨q, List.mem_cons_of_mem _ hq, rfl⟩

lemma mem_serialToAvd {nameOf : String → Option String} {devices : List Device}
    {p : String × String} :
    p ∈ serialToAvd nameOf devices ↔
      ∃ d ∈ devices, d.connectionType = ConnectionType.emulator ∧
        nameOf d.serial = some p.2 ∧ p.1 = d.serial := by
  unfold serialToAvd
  constructor
  · intro h
    obtain ⟨d, hd, heq⟩ := List.mem_filterMap.mp h
    obtain ⟨hdev, hconn⟩ := List.mem_filter.mp hd
    obtain ⟨n, hn, hpn⟩ := Option.map_eq_some'.mp heq
    refine ⟨d, hdev, by simpa using hconn, ?_, ?_⟩
    · rw [hn]
      rw [← hpn]
    · rw [← hpn]
  · intro ⟨d, hdev, hconn, hname, hserial⟩
    refine List.mem_filterMap.mpr ⟨d, List.mem_filter.mpr ⟨hdev, by simp [hconn]⟩, ?_⟩
    rw [hname]
    simp
    cases p
    simp_all

/-- C6: with distinct declared image names, avds_with_status produces
entries with pairwise distinct names; every declared name appears joined
with the serial of the first running emulator reporting it; that serial is
present iff some emulator-kind device reports the name; every running
emulator's name appears with a present serial (synthesized when not
declared); and every entry is either declared or synthesized from a
running emulator. -/
theorem avds_with_status_spec (names : List String) (nameOf : String → Option String)
    (devices : List Device) (hnd : names.Nodup) :
    ((avdsWithStatus (some names) nameOf devices).map Avd.name).Nodup ∧
    (∀ name ∈ names,
      ({ name := name,
         runningSerial :=
           ((serialToAvd nameOf devices).find? (fun p => p.2 = name)).map Prod.fst } : Avd) ∈
        avdsWithStatus (some names) nameOf devices) ∧
    (∀ name : String,
      (((serialToAvd nameOf devices).find? (fun p => p.2 = name)).isSome ↔
        ∃ d ∈ devices, d.connectionType = ConnectionType.emulator ∧
          nameOf d.serial = some name)) ∧
    (∀ p ∈ serialToAvd nameOf devices,
      ∃ a ∈ avdsWithStatus (some names) nameOf devices,
        a.name = p.2 ∧ a.runningSerial.isSome) ∧
    (∀ a ∈ avdsWithStatus (some names) nameOf devices,
      a.name ∈ names ∨
        ∃ p ∈ serialToAvd nameOf devices,
          a = { name := p.2, runningSerial := some p.1 }) := by
  have hfind : ∀ name : String,
      (((serialToAvd nameOf devices).find? (fun p => p.2 = name)).isSome ↔
        ∃ d ∈ devices, d.connectionType = ConnectionType.emulator ∧
          nameOf d.serial = some name) := by
    intro name
    rw [List.find?_isSome]
    constructor
    · intro ⟨p, hp, hpn⟩
      obtain ⟨d, hdev, hconn, hname, _⟩ := mem_serialToAvd.mp hp
      refine ⟨d, hdev, hconn, ?_⟩
      rw [hname]
      simpa using hpn
    · intro ⟨d, hdev, hconn, hname⟩
      refine ⟨(d.serial, name), mem_serialToAvd.mpr ⟨d, hdev, hconn, by simpa using hname, rfl⟩,
        by simp⟩
  have hdecl : ∀ name ∈ names,
      ({ name := name,
         runningSerial :=
           ((serialToAvd nameOf devices).find? (fun p => p.2 = name)).map Prod.fst } : Avd) ∈
        avdsWithStatus (some names) nameOf devices := by
    intro name hname
    apply mem_foldl_appendRunning
    exact List.mem_map.mpr ⟨name, hname, rfl⟩
  have hR : avdsWithStatus (some names) nameOf devices =
      (serialToAvd nameOf devices).foldl appendRunning
        (names.map (fun name =>
          ({ name := name,
             runningSerial :=
               ((serialToAvd nameOf devices).find? (fun p => p.2 = name)).map Prod.fst } : Avd))) :=
    rfl
  refine ⟨?_, hdecl, hfind, ?_, ?_⟩
  · rw [hR]
    apply foldl_appendRunning_names_nodup
    have hmap : (List.map Avd.name (names.map (fun name =>
        ({ name := name,
           runningSerial :=
             ((serialToAvd nameOf devices).find? (fun p => p.2 = name)).map Prod.fst } : Avd))))
        = names := by
      rw [List.map_map]
      have hfn : (Avd.name ∘ fun name =>
          ({ name := name,
             runningSerial :=
               ((serialToAvd nameOf devices).find? (fun p => p.2 = name)).map Prod.fst } : Avd)) =
          fun x => x := rfl
      rw [hfn, List.map_id']
    rw [hmap]
    exact hnd
  · intro p hp
    obtain ⟨a, ha, hn⟩ := foldl_appendRunning_mem_name
      (names.map (fun name =>
        ({ name := name,
           runningSerial :=
             ((serialToAvd nameOf devices).find? (fun p => p.2 = name)).map Prod.fst } : Avd)))
      hp
    refine ⟨a, ha, hn, ?_⟩
    rcases foldl_appendRunning_mem ha with hacc | ⟨q, hq, rfl⟩
    · obtain ⟨nm, hnm, rfl⟩ := List.mem_map.mp hacc
      simp only [Option.isSome_map']
      rw [List.find?_isSome]
      refine ⟨p, hp, ?_⟩
      have hnm : nm = p.2 := by simpa using hn
      simp [hnm]
    · rfl
  · intro a ha
    rcases foldl_appendRunning_mem ha with hacc | ⟨p, hp, rfl⟩
    · obtain ⟨nm, hnm, rfl⟩ := List.mem_map.mp hacc
      exact Or.inl hnm
    · exact Or.inr ⟨p, hp, rfl⟩

/-- A concrete run of the C6 theorem: Pixel_4 declared and also running. -/
theorem avds_with_status_spec_witness :
    ((avdsWithStatus (some ["Pixel_4"]) (fun s => if s = "emulator-5554" then some ("Pixel_4") else none)
      [{ serial := "emulator-5554", state := .online, model := none, product := none,
         transportId := none, connectionType := .emulator }]).map Avd.name).Nodup :=
  (avds_with_status_spec ["Pixel_4"]
    (fun s => if s = "emulator-5554" then some ("Pixel_4") else none)
    [{ serial := "emulator-5554", state := .online, model := none, product := none,
       transportId := none, connectionType := .emulator }] (by simp)).1

/-! ## Claims C7, C8: failure absorption and placeholder fallbacks -/

/-- C7: each optional telemetry field is assembled independently from its
own subcommand result (a failed call only makes that field absent, and the
record is always produced); at the command-execution boundary the
fire-and-forget bridge calls never change state or produce messages, and a
failed roster refresh or an unknown serial produces nothing while the
remaining commands still execute. -/
theorem bridge_failures_absorbed :
    (∀ (o : DeviceShellOracle) (d : Device),
      (fetchDeviceInfo o d).serial = d.serial ∧
      (fetchDeviceInfo o d).battery = o.battery.bind parseBattery ∧
      (fetchDeviceInfo o d).storage = o.storage.bind parseStorage ∧
      (fetchDeviceInfo o d).ram = o.meminfo.bind parseRam ∧
      (fetchDeviceInfo o d).wifi = o.wifi.bind parseWifi ∧
      (o.battery = none → (fetchDeviceInfo o d).battery = none) ∧
      (o.storage = none → (fetchDeviceInfo o d).storage = none) ∧
      (o.meminfo = none → (fetchDeviceInfo o d).ram = none) ∧
      (o.wifi = none → (fetchDeviceInfo o d).wifi = none)) ∧
    (∀ (bridge : Bridge) (cfg : AppConfig) (s : AppState) (rest : List Command)
        (name : String),
      App.executeCommands bridge cfg s (Command.startEmulator name :: rest) =
        App.executeCommands bridge cfg s rest) ∧
    (∀ (bridge : Bridge) (cfg : AppConfig) (s : AppState) (rest : List Command)
        (serial : String),
      App.executeCommands bridge cfg s (Command.killEmulator serial :: rest) =
        App.executeCommands bridge cfg s rest) ∧
    (∀ (bridge : Bridge) (cfg : AppConfig) (s : AppState) (rest : List Command)
        (serial : String),
      App.executeCommands bridge cfg s (Command.disconnectDevice serial :: rest) =
        App.executeCommands bridge cfg s rest) ∧
    (∀ (bridge : Bridge) (cfg : AppConfig) (s : AppState) (rest : List Command),
      bridge.listDevices = none →
      App.executeCommands bridge cfg s (Command.refreshDevices :: rest) =
        App.executeCommands bridge cfg s rest) ∧
    (∀ (bridge : Bridge) (cfg : AppConfig) (s : AppState) (rest : List Command)
        (serial : String),
      (∀ d ∈ s.devices.devices, d.serial ≠ serial) →
      App.executeCommands bridge cfg s (Command.refreshDeviceInfo serial :: rest) =
        App.executeCommands bridge cfg s rest) := by
  refine ⟨?_, ?_, ?_, ?_, ?_, ?_⟩
  · intro o d
    refine ⟨rfl, rfl, rfl, rfl, rfl, ?_, ?_, ?_, ?_⟩ <;> intro h <;>
      simp [fetchDeviceInfo, h]
  · intro bridge cfg s rest name
    rfl
  · intro bridge cfg s rest serial
    rfl
  · intro bridge cfg s rest serial
    rfl
  · intro bridge cfg s rest h
    have h1 : App.executeOne bridge cfg s Command.refreshDevices = (s, []) := by
      unfold App.executeOne
      rw [h]
    simp only [App.executeCommands, h1]
    rcases App.executeCommands bridge cfg s rest with ⟨s2, msgs2⟩
    simp
  · intro bridge cfg s rest serial h
    have h1 : App.executeOne bridge cfg s (Command.refreshDeviceInfo serial) = (s, []) := by
      unfold App.executeOne
      dsimp only
      rw [List.find?_eq_none.mpr (fun d hd => by simp [h d hd])]
    simp only [App.executeCommands, h1]
    rcases App.executeCommands bridge cfg s rest with ⟨s2, msgs2⟩
    simp

/-- A concrete run of the C7 theorem: a failed roster refresh produces
nothing and execution continues. -/
theorem bridge_failures_absorbed_witness :
    App.executeCommands bridge0 cfgQuit sHelp (Command.refreshDevices :: []) =
      App.executeCommands bridge0 cfgQuit sHelp [] :=
  bridge_failures_absorbed.2.2.2.2.1 bridge0 cfgQuit sHelp [] rfl

def devX : Device :=
  { serial := "X", state := .online, model := none, product := none,
    transportId := none, connectionType := .usb }

/-- C8 as stated is false: with every diagnostic call failing and a device
without a model, the model field falls back to the device display name
(here the serial, "X"), not to the "N/A" placeholder; serial, state and
connection are always taken from the device record. -/
theorem na_fallback_counterexample :
    (fetchDeviceInfo oracleFail devX).model = "X" ∧
    (fetchDeviceInfo oracleFail devX).model ≠ "N/A" ∧
    (fetchDeviceInfo oracleFail devX).serial = "X" ∧
    (fetchDeviceInfo oracleFail devX).state = "device" ∧
    (fetchDeviceInfo oracleFail devX).connectionType = "USB" ∧
    (fetchDeviceInfo oracleFail devX).androidVersion = "N/A" ∧
    (fetchDeviceInfo oracleFail devX).apiLevel = "N/A" ∧
    (fetchDeviceInfo oracleFail devX).abi = "N/A" ∧
    (fetchDeviceInfo oracleFail devX).locale = "N/A" := by
  decide

/-- C8 amended: android-version, api-level, abi and locale fall back to the
literal "N/A" when the property dump does not provide them; the model falls
back to the device display name; serial, state and connection are always
derived from the device record itself. -/
theorem na_fallbacks (o : DeviceShellOracle) (d : Device) :
    (fetchDeviceInfo o d).serial = d.serial ∧
    (fetchDeviceInfo o d).state = d.state.toDisplay ∧
    (fetchDeviceInfo o d).connectionType = connLabel d.connectionType ∧
    ((parseGetprop (o.getprop.getD "")).androidVersion = "" →
      (fetchDeviceInfo o d).androidVersion = "N/A") ∧
    ((parseGetprop (o.getprop.getD "")).androidVersion ≠ "" →
      (fetchDeviceInfo o d).androidVersion =
        (parseGetprop (o.getprop.getD "")).androidVersion) ∧
    ((parseGetprop (o.getprop.getD "")).apiLevel = "" →
      (fetchDeviceInfo o d).apiLevel = "N/A") ∧
    ((parseGetprop (o.getprop.getD "")).apiLevel ≠ "" →
      (fetchDeviceInfo o d).apiLevel = (parseGetprop (o.getprop.getD "")).apiLevel) ∧
    ((parseGetprop (o.getprop.getD "")).abi = "" →
      (fetchDeviceInfo o d).abi = "N/A") ∧
    ((parseGetprop (o.getprop.getD "")).abi ≠ "" →
      (fetchDeviceInfo o d).abi = (parseGetprop (o.getprop.getD "")).abi) ∧
    ((parseGetprop (o.getprop.getD "")).locale = "" →
      (fetchDeviceInfo o d).locale = "N/A") ∧
    ((parseGetprop (o.getprop.getD "")).locale ≠ "" →
      (fetchDeviceInfo o d).locale = (parseGetprop (o.getprop.getD "")).locale) ∧
    ((parseGetprop (o.getprop.getD "")).model = "" →
      (fetchDeviceInfo o d).model = d.displayName) ∧
    ((parseGetprop (o.getprop.getD "")).model ≠ "" →
      (fetchDeviceInfo o d).model = (parseGetprop (o.getprop.getD "")).model) := by
  refine ⟨rfl, rfl, rfl, ?_, ?_, ?_, ?_, ?_, ?_, ?_, ?_, ?_, ?_⟩ <;> intro h <;>
    simp [fetchDeviceInfo, h]

/-- A concrete run of the amended C8 theorem. -/
theorem na_fallbacks_witness :
    (fetchDeviceInfo oracleFail devX).androidVersion = "N/A" ∧
    (fetchDeviceInfo oracleFail devX).model = devX.displayName :=
  ⟨(na_fallbacks oracleFail devX).2.2.2.1 (by decide),
   (na_fallbacks oracleFail devX).2.2.2.2.2.2.2.2.2.2.2.1 (by decide)⟩

/-! ## Claim C9: parse_storage -/

/-- A filesystem-usage blob whose second line is not parsable: the parser
skips it and parses the third line. -/
def dfBlob : String :=
  "hdr h h h h\nbad line\nfs 100 50 50 x"

/-- C9 as stated is false: parse_storage does not parse the second line of
this blob (which has fewer than 4 whitespace tokens, so the claim predicts
absence); it skips ahead and parses the third line instead. -/
theorem parse_storage_second_line_counterexample :
    (splitWhitespace ((rustLines dfBlob).getD 1 "")).length < 4 ∧
    parseStorage dfBlob =
      some { usedGb := ((50 : Nat) : ℚ) / 1048576,
             totalGb := ((100 : Nat) : ℚ) / 1048576 } := by
  constructor
  · decide
  · show goStorage ((rustLines dfBlob).drop 1) = _
    have h1 : (rustLines dfBlob).drop 1 = ("bad line") :: ("fs 100 50 50 x") :: [] := by
      decide
    rw [h1]
    simp only [goStorage]
    rw [if_neg (by decide)]
    rw [if_pos (by decide)]
    have ht : toNatStr? ((splitWhitespace ("fs 100 50 50 x")).getD 1 "") = some 100 := by
      decide
    have hu : toNatStr? ((splitWhitespace ("fs 100 50 50 x")).getD 2 "") = some 50 := by
      decide
    rw [ht, hu]

/-- C9 amended: parse_storage scans the lines after the first for the
first one with at least four whitespace tokens; that line's column 1 is
the total and column 2 the used KB count, each divided by 1,048,576 to
give GB; if its numeric columns do not parse, or no such line exists, the
result is absence rather than a failure (on a typical df report the parsed
line is the second one). -/
theorem parse_storage_amended :
    (∀ output : String, parseStorage output = goStorage ((rustLines output).drop 1)) ∧
    (∀ (line : String) (rest : List String) (t u : Nat),
      4 ≤ (splitWhitespace line).length →
      toNatStr? ((splitWhitespace line).getD 1 "") = some t →
      toNatStr? ((splitWhitespace line).getD 2 "") = some u →
      goStorage (line :: rest) =
        some { usedGb := (u : ℚ) / 1048576, totalGb := (t : ℚ) / 1048576 }) ∧
    (∀ (line : String) (rest : List String),
      (splitWhitespace line).length < 4 →
      goStorage (line :: rest) = goStorage rest) ∧
    (∀ ls : List String, (∀ l ∈ ls, (splitWhitespace l).length < 4) →
      goStorage ls = none) ∧
    (∀ (line : String) (rest : List String),
      4 ≤ (splitWhitespace line).length →
      toNatStr? ((splitWhitespace line).getD 1 "") = none →
      goStorage (line :: rest) = none) := by
  refine ⟨fun _ => rfl, ?_, ?_, ?_, ?_⟩
  · intro line rest t u hlen ht hu
    simp only [goStorage]
    rw [if_pos hlen, ht, hu]
  · intro line rest hlen
    simp only [goStorage]
    rw [if_neg (by omega)]
  · intro ls h
    induction ls with
    | nil => rfl
    | cons l rest ih =>
      have hl : (splitWhitespace l).length < 4 := h l (List.mem_cons_self _ _)
      simp only [goStorage]
      rw [if_neg (by omega)]
      exact ih (fun x hx => h x (List.mem_cons_of_mem _ hx))
  · intro line rest hlen ht
    simp only [goStorage]
    rw [if_pos hlen, ht]

/-- A concrete run of the amended C9 theorem on a typical df data line. -/
theorem parse_storage_amended_witness :
    goStorage (("fs 100 50 50 x") :: []) =
      some { usedGb := ((50 : Nat) : ℚ) / 1048576,
             totalGb := ((100 : Nat) : ℚ) / 1048576 } :=
  parse_storage_amended.2.1 ("fs 100 50 50 x") [] 100 50 (by decide) (by decide) (by decide)

end LazyAdb
